import Mathlib

/-!
Verification of the MAML regression training core (`regression/maml.py`).

The development shallowly embeds the code of `run` and `eval`:

* `ParameterSet` models the model's parameter collections
  (`model.weights`, `model.biases`, `model.task_context`), with each
  tensor represented by one scalar of a field `α` (instantiated at `ℚ`
  for exact evaluation and at `ℝ` for calculus facts).
* `updateParams` models one execution of the parameter-update block
  (lines 114-127 of `run`, lines 253-257 of `eval`), including the
  failure of the Python code when the weight list or the bias list is
  empty (the loop variables `i` / `j` used in `grads[i + j + 1]` and
  `grads[i + j + 2]` are then unbound) and when the gradient list is too
  short (index error); failure is `none`.
* `trainInnerLoop` models the inner-update loop of `run`
  (lines 98-127): at every step the forward pass and the gradient are
  taken at `model_outer`'s parameters, which the loop never writes.
* `evalAdapt` models the adaptation loop of `eval` (lines 240-257),
  where forward pass and gradient are taken at the current parameters.
* `taskLoop` / `metaBatchPhase` / `avgMetaGrad` model the per-task
  phase of one outer iteration (lines 78-147) and the division of the
  accumulated meta-gradient by `tasks_per_metaupdate` (lines 155-162).

Automatic differentiation (`torch.autograd.grad`) is external
infrastructure: the loops take the per-task gradient functions as
parameters, and for the concrete linear model `x ↦ w * x + b + c` the
gradient formulas are certified against Mathlib's `HasDerivAt`.
-/

/-- Model parameters of `MamlModel` as used by `run` and `eval`: the
lists `model.weights` and `model.biases` and the tensor
`model.task_context`, each tensor modelled by one scalar. -/
structure ParameterSet (α : Type) where
  weights : List α
  biases : List α
  task_context : α
deriving DecidableEq, Repr

/-- Value copy of every component, as in
`[w.clone() for w in model.weights]` etc. (lines 78-80, 91-93,
211-213, 227-229): cloning copies values. -/
def clone {α : Type} (p : ParameterSet α) : ParameterSet α :=
  ⟨p.weights.map (fun w => w), p.biases.map (fun b => b), p.task_context⟩

/-- One execution of the update block (lines 114-127 of `run` with the
base parameters `outer`; lines 253-257 of `eval` with the current
parameters as base). After the loop `for i in range(len(weights))` the
variable `i` holds `len(weights) - 1`, so `grads[i + j + 1]` is
`grads[len(weights) + j]` and `grads[i + j + 2]` is
`grads[len(weights) + len(biases)]`. When the weight list or the bias
list is empty the corresponding loop variable is unbound and the Python
block raises `NameError` before assigning anything; when the gradient
list is shorter than `len(weights) + len(biases) + 1` the block raises
`IndexError`. Both failures are `none`. -/
def updateParams {α : Type} [Field α] (lr : α) (outer : ParameterSet α)
    (grads : List α) : Option (ParameterSet α) :=
  if outer.weights.isEmpty ∨ outer.biases.isEmpty then none
  else if grads.length < outer.weights.length + outer.biases.length + 1 then none
  else some
    ⟨(List.range outer.weights.length).map
        (fun i => outer.weights.getD i 0 - lr * grads.getD i 0),
      (List.range outer.biases.length).map
        (fun j => outer.biases.getD j 0 - lr * grads.getD (outer.weights.length + j) 0),
      outer.task_context
        - lr * grads.getD (outer.weights.length + outer.biases.length) 0⟩

/-- Inner-update loop of `run` (lines 98-127). Each of the `K`
iterations computes `outputs = model_outer(train_inputs)` and takes
`grads = torch.autograd.grad(loss_task, params)` with `params` the
parameters of `model_outer` — which the loop never writes — and then
assigns `model_inner`'s parameters from `model_outer`'s parameters and
those gradients. `gradTrain p` stands for the gradient of the training
loss at parameters `p`; `inner0` is the state `model_inner` was reset
to before the loop (lines 91-93). The previous iteration's result is
discarded by the next assignment, but a failure inside any iteration
aborts the loop. -/
def trainInnerLoop {α : Type} [Field α] (lr : α)
    (gradTrain : ParameterSet α → List α)
    (outer inner0 : ParameterSet α) : Nat → Option (ParameterSet α)
  | 0 => some inner0
  | Nat.succ k => do
      let _ ← trainInnerLoop lr gradTrain outer inner0 k
      updateParams lr outer (gradTrain outer)

/-- Adaptation loop of `eval` (lines 240-257). Each of the
`num_updates` iterations computes `curr_outputs = model(curr_inputs)`
and gradients at the *current* parameters of `model`, then updates
those same parameters in place. -/
def evalAdapt {α : Type} [Field α] (lr : α)
    (gradTrain : ParameterSet α → List α) :
    Nat → ParameterSet α → Option (ParameterSet α)
  | 0, p => some p
  | Nat.succ k, p => do
      let p' ← evalAdapt lr gradTrain k p
      updateParams lr p' (gradTrain p')

/-- Modelled from the spec: the inner adaptation the specification
describes ("evaluate the function with the *current* working
parameters"; "the adapted parameters after K steps are the K-fold
iterate of the single-step update starting from the clone of the
shared parameters"). Each step takes the gradient at the current
working parameters and updates from them. -/
def specAdapt {α : Type} [Field α] (lr : α)
    (gradTrain : ParameterSet α → List α) :
    Nat → ParameterSet α → Option (ParameterSet α)
  | 0, p => some p
  | Nat.succ k, p => do
      let p' ← updateParams lr p (gradTrain p)
      specAdapt lr gradTrain k p'

/-- Linear model with one weight, one bias and the context scalar:
`f(x) = w * x + b + c`, the concrete instance used for evaluating the
loops on sample data. -/
def linFwd {α : Type} [Field α] (p : ParameterSet α) (x : α) : α :=
  p.weights.getD 0 0 * x + p.biases.getD 0 0 + p.task_context

/-- Gradient of the squared error `(linFwd p x - y)^2` of the linear
model on the single training sample `(x, y)`, in the parameter order
weights, biases, context (certified against `HasDerivAt` below). -/
def linGrad {α : Type} [Field α] (x y : α) (p : ParameterSet α) : List α :=
  [2 * (linFwd p x - y) * x, 2 * (linFwd p x - y), 2 * (linFwd p x - y)]

/-- State threaded through one outer iteration of `run`: the shared
parameters held by `model_outer`, the working parameters held by
`model_inner`, and the accumulator list `meta_gradient`. -/
structure MamlState (α : Type) where
  model_outer : ParameterSet α
  model_inner : ParameterSet α
  meta_gradient : List α
deriving DecidableEq, Repr

/-- Accumulation step of lines 146-147:
`for i in range(n): meta_gradient[i] += task_grads[i]` with
`n = len(weights + biases) + 1`. -/
def accumGrad {α : Type} [Field α] (n : Nat) (mg tg : List α) : List α :=
  (List.range n).map (fun k => mg.getD k 0 + tg.getD k 0)

/-- Per-task loop of lines 88-147, processing tasks `0, …, T-1`. Each
task resets `model_inner` from the clones taken at lines 78-80
(`copies`), runs the inner-update loop, and accumulates
`task_grads = torch.autograd.grad(loss_meta, model_outer-params)`
(line 144), modelled by `gradMeta t outer adapted`, into
`meta_gradient`. `model_outer` is only read. -/
def taskLoop {α : Type} [Field α] (lr : α) (K n : Nat)
    (gradTrain : Nat → ParameterSet α → List α)
    (gradMeta : Nat → ParameterSet α → ParameterSet α → List α)
    (copies : ParameterSet α) :
    Nat → MamlState α → Option (MamlState α)
  | 0, st => some st
  | Nat.succ t, st => do
      let st' ← taskLoop lr K n gradTrain gradMeta copies t st
      let inner0 := clone copies
      let adapted ← trainInnerLoop lr (gradTrain t) st'.model_outer inner0 K
      let tg := gradMeta t st'.model_outer adapted
      pure ⟨st'.model_outer, adapted, accumGrad n st'.meta_gradient tg⟩

/-- Whole cloning-and-accumulation phase of one outer iteration
(lines 78-147): take the clones of `model_outer`'s parameters, zero
the accumulator (`meta_gradient = [0 for _ in range(n)]`, line 83),
and run the per-task loop over `T = tasks_per_metaupdate` tasks. -/
def metaBatchPhase {α : Type} [Field α] (lr : α) (K T n : Nat)
    (gradTrain : Nat → ParameterSet α → List α)
    (gradMeta : Nat → ParameterSet α → ParameterSet α → List α)
    (s : MamlState α) : Option (MamlState α) :=
  taskLoop lr K n gradTrain gradMeta (clone s.model_outer) T
    ⟨s.model_outer, s.model_inner, List.replicate n 0⟩

/-- Averaged meta-gradient of one outer iteration: the accumulator
after the per-task phase, divided element-wise by
`tasks_per_metaupdate` (lines 155-162). -/
def avgMetaGrad {α : Type} [Field α] (lr : α) (K T n : Nat)
    (gradTrain : Nat → ParameterSet α → List α)
    (gradMeta : Nat → ParameterSet α → ParameterSet α → List α)
    (s : MamlState α) : Option (List α) :=
  (metaBatchPhase lr K T n gradTrain gradMeta s).map
    (fun r => r.meta_gradient.map (fun g => g / (T : α)))

/-- One full outer iteration (lines 78-165): the per-task phase
followed by the outer-optimizer step, which is the only write to
`model_outer` (lines 151-165), abstracted as `opt` consuming the
shared parameters and the averaged meta-gradient. -/
def metaIteration {α : Type} [Field α]
    (opt : ParameterSet α → List α → ParameterSet α) (lr : α) (K T n : Nat)
    (gradTrain : Nat → ParameterSet α → List α)
    (gradMeta : Nat → ParameterSet α → ParameterSet α → List α)
    (s : MamlState α) : Option (MamlState α) :=
  (metaBatchPhase lr K T n gradTrain gradMeta s).map
    (fun r =>
      ⟨opt r.model_outer (r.meta_gradient.map (fun g => g / (T : α))),
        r.model_inner, r.meta_gradient⟩)

/-- Configuration-key check of lines 37-40: warn exactly when the
number of keys differs from the number of default keys, and in that
case print the keys of the configuration that are not default keys.
`some l` is the emitted warning with its printed key list `l`; `none`
is no warning. Execution continues in either case. -/
def configWarning (configKeys defaultKeys : List String) : Option (List String) :=
  if configKeys.length = defaultKeys.length then none
  else some (configKeys.filter (fun k => !(defaultKeys.contains k)))

/-- Stages of `run` relevant to its early-exit behaviour. -/
inductive RunStep
  | cacheCheck
  | configWarn
  | taskSelect
  | initModel
  | train
deriving DecidableEq, Repr

/-- Fatal error raised by `run`. -/
inductive RunErr
  | notImplemented
deriving DecidableEq, Repr

/-- Control flow of `run` up to model initialisation, for a
configuration with `method = 'maml'` (the assertion of line 24
passes). Lines 27-33: when a persisted result for this configuration
exists (`cachedExists`) and `rerun` is false, `run` returns the loaded
result at once (`Except.ok true`). Otherwise the key-count warning
block runs (lines 37-40), and the task family is selected
(lines 48-57): a task identity other than `"sine"` and `"celeba"`
raises `NotImplementedError`; otherwise the model is initialised and
training runs (`Except.ok false`). The step list records which stages
executed, in order. -/
def runControl (cachedExists rerun : Bool) (task : String) :
    List RunStep × Except RunErr Bool :=
  if cachedExists && !rerun then ([RunStep.cacheCheck], Except.ok true)
  else if task = "sine" ∨ task = "celeba" then
    ([RunStep.cacheCheck, RunStep.configWarn, RunStep.taskSelect,
      RunStep.initModel, RunStep.train], Except.ok false)
  else
    ([RunStep.cacheCheck, RunStep.configWarn, RunStep.taskSelect],
      Except.error RunErr.notImplemented)

/-- Mean-squared-error loss of the linear model on the batch
`xs`/`ys` (`F.mse_loss`, lines 109 and 141): mean over the batch of
the squared error. -/
def mseLin {α : Type} [Field α] (xs ys : List α) (p : ParameterSet α) : α :=
  ((xs.zip ys).map (fun q => (linFwd p q.1 - q.2) ^ 2)).sum / (xs.length : α)

/-- Gradient of `mseLin xs ys` in the parameter order weights, biases,
context (certified against `HasDerivAt` below). -/
def gradMseLin {α : Type} [Field α] (xs ys : List α) (p : ParameterSet α) : List α :=
  [((xs.zip ys).map (fun q => 2 * (linFwd p q.1 - q.2) * q.1)).sum / (xs.length : α),
    ((xs.zip ys).map (fun q => 2 * (linFwd p q.1 - q.2))).sum / (xs.length : α),
    ((xs.zip ys).map (fun q => 2 * (linFwd p q.1 - q.2))).sum / (xs.length : α)]

/-- Weight-update assignment of lines 116/118:
`model_inner.weights[i] = model_outer.weights[i] - lr_inner * grads[i]`
for one scalar weight. -/
def weightUpdate {α : Type} [Field α] (lr w g : α) : α :=
  w - lr * g

/-- C5: with `num_inner_updates = 0` the inner adaptation loop of `run`
performs no update and returns exactly the (value-identical) clone of
the shared parameters: every weight, every bias and the context are
unchanged. -/
theorem C5_zero_steps_identity {α : Type} [Field α] (lr : α)
    (gradTrain : ParameterSet α → List α) (outer : ParameterSet α) :
    trainInnerLoop lr gradTrain outer (clone (clone outer)) 0 = some outer ∧
    clone outer = outer := by
  have h : clone outer = outer := by cases outer; simp [clone]
  exact ⟨by simp [trainInnerLoop, h], h⟩

/-- C1, evaluation of the code at the failing input: for the linear
model with shared parameters `(0, 0, 0)`, training sample `x = 1`,
`y = 1`, step size `1/10` and `K = 2`, the training inner loop of
`run` — which recomputes the forward pass and the gradient from the
unchanged `model_outer` at every step — returns the single-step update
`(1/5, 1/5, 1/5)`, while the K-fold iterate of the single-step update
described by the claim returns `(7/25, 7/25, 7/25)`; the two differ. -/
theorem C1_training_loop_not_kfold_iterate :
    trainInnerLoop (1/10 : ℚ) (linGrad 1 1) ⟨[0], [0], 0⟩ (clone (clone ⟨[0], [0], 0⟩)) 2 =
      some ⟨[1/5], [1/5], 1/5⟩ ∧
    specAdapt (1/10 : ℚ) (linGrad 1 1) 2 (clone (clone ⟨[0], [0], 0⟩)) =
      some ⟨[7/25], [7/25], 7/25⟩ ∧
    trainInnerLoop (1/10 : ℚ) (linGrad 1 1) ⟨[0], [0], 0⟩ (clone (clone ⟨[0], [0], 0⟩)) 2 ≠
      specAdapt (1/10 : ℚ) (linGrad 1 1) 2 (clone (clone ⟨[0], [0], 0⟩)) := by
  refine ⟨?_, ?_, ?_⟩ <;>
    norm_num [trainInnerLoop, specAdapt, updateParams, clone, linGrad, linFwd, List.range_succ]

/-- C2, evaluation of the code at the failing input: for the linear
model with shared parameters `(0, 0, 0)`, sample `x = 1`, `y = 2`,
step size `1/2` and `K = 2` update steps, the adaptation loop of
`eval` (gradients at the current parameters) returns `(-2, -2, -2)`
while the training inner loop of `run` in first-order mode (gradients
recomputed at the unchanged `model_outer`) returns `(2, 2, 2)`; the
adapted values differ, refuting the claimed equivalence for `K = 2`. -/
theorem C2_eval_adapt_differs_from_training_loop :
    evalAdapt (1/2 : ℚ) (linGrad 1 2) 2 (clone ⟨[0], [0], 0⟩) = some ⟨[-2], [-2], -2⟩ ∧
    trainInnerLoop (1/2 : ℚ) (linGrad 1 2) ⟨[0], [0], 0⟩ (clone (clone ⟨[0], [0], 0⟩)) 2 =
      some ⟨[2], [2], 2⟩ ∧
    evalAdapt (1/2 : ℚ) (linGrad 1 2) 2 (clone ⟨[0], [0], 0⟩) ≠
      trainInnerLoop (1/2 : ℚ) (linGrad 1 2) ⟨[0], [0], 0⟩ (clone (clone ⟨[0], [0], 0⟩)) 2 := by
  refine ⟨?_, ?_, ?_⟩ <;>
    norm_num [evalAdapt, trainInnerLoop, updateParams, clone, linGrad, linFwd, List.range_succ]

/-- C10: the parameter-update block is well-defined exactly when the
weight list and the bias list are both nonempty (and the gradient list
is long enough); then weight `i` receives gradient component `i`, bias
`j` receives component `len(weights) + j`, and the context receives
component `len(weights) + len(biases)`. With an empty weight or bias
list the block fails (`none`, the Python `NameError` on the unbound
loop variable) rather than performing any misaligned update. -/
theorem C10_update_index_layout {α : Type} [Field α] (lr : α)
    (p : ParameterSet α) (grads : List α) :
    ((p.weights = [] ∨ p.biases = []) → updateParams lr p grads = none) ∧
    (p.weights ≠ [] → p.biases ≠ [] →
      p.weights.length + p.biases.length + 1 ≤ grads.length →
      updateParams lr p grads = some
        ⟨(List.range p.weights.length).map
            (fun i => p.weights.getD i 0 - lr * grads.getD i 0),
          (List.range p.biases.length).map
            (fun j => p.biases.getD j 0 - lr * grads.getD (p.weights.length + j) 0),
          p.task_context - lr * grads.getD (p.weights.length + p.biases.length) 0⟩) := by
  constructor
  · intro h
    rcases h with h | h <;> simp [updateParams, h]
  · intro hw hb hlen
    have h1 : ¬(p.weights.isEmpty ∨ p.biases.isEmpty) := by
      simp [List.isEmpty_iff, hw, hb]
    have h2 : ¬(grads.length < p.weights.length + p.biases.length + 1) := by omega
    simp [updateParams, h1, h2]
    exact ⟨hw, hb⟩

/-- Witness for C10 at concrete inputs: an empty weight list fails,
and a one-weight/one-bias parameter set is updated at the stated
indices. -/
theorem C10_update_index_layout_witness :
    updateParams (1 : ℚ) ⟨[], [2], 3⟩ [1, 1] = none ∧
    updateParams (1 : ℚ) ⟨[1], [2], 3⟩ [1, 1, 1] = some ⟨[0], [1], 2⟩ := by
  constructor
  · exact (C10_update_index_layout 1 ⟨[], [2], 3⟩ [1, 1]).1 (Or.inl rfl)
  · rw [(C10_update_index_layout (1 : ℚ) ⟨[1], [2], 3⟩ [1, 1, 1]).2
      (by simp) (by simp) (by norm_num)]
    norm_num [List.range_succ]

/-- C8, counterexample: the configuration key list
`["task", "extra"]` contains the key `"extra"`, which is not among the
default keys `["task", "seed"]`, yet no warning is emitted, because
line 38 compares only the number of keys (2 = 2). -/
theorem C8_equal_count_no_warning :
    ("extra" : String) ∉ (["task", "seed"] : List String) ∧
    ("extra" : String) ∈ (["task", "extra"] : List String) ∧
    configWarning ["task", "extra"] ["task", "seed"] = none :=
  ⟨by decide, by decide, rfl⟩

/-- C8, amended: for every configuration whose keys are the default
keys plus a nonempty list of additional keys, the key-count check
fires and the printed list is exactly the additional keys; execution
continues (a warning is not an abort). -/
theorem C8_superset_keys_warn (defaults extras : List String)
    (h1 : extras ≠ []) (h2 : ∀ k ∈ extras, k ∉ defaults) :
    configWarning (defaults ++ extras) defaults = some extras := by
  have hpos : 0 < extras.length := List.length_pos.mpr h1
  have hlen : ¬((defaults ++ extras).length = defaults.length) := by
    simp only [List.length_append]
    omega
  rw [configWarning, if_neg hlen, List.filter_append]
  have hd : defaults.filter (fun k => !(defaults.contains k)) = [] := by
    simp
  have he : extras.filter (fun k => !(defaults.contains k)) = extras := by
    rw [List.filter_eq_self]
    intro a ha
    simp [h2 a ha]
  rw [hd, he]
  simp

/-- Witness for C8 at concrete key lists. -/
theorem C8_superset_keys_warn_witness :
    ((["b"] : List String) ≠ []) ∧ (∀ k ∈ (["b"] : List String), k ∉ (["a"] : List String)) ∧
    configWarning (["a"] ++ ["b"]) ["a"] = some ["b"] :=
  ⟨by decide, by decide, C8_superset_keys_warn ["a"] ["b"] (by decide) (by decide)⟩

/-- C9, counterexample: with a persisted result present
(`cachedExists = true`) and `rerun = false`, `run` on the unsupported
task identity `"fake"` returns the cached result (`Except.ok true`)
from lines 32-33 without raising any error, refuting the claim as
universally stated. -/
theorem C9_cached_unsupported_task_returns :
    ("fake" : String) ≠ "sine" ∧ ("fake" : String) ≠ "celeba" ∧
    (runControl true false "fake").2 = Except.ok true ∧
    RunStep.initModel ∉ (runControl true false "fake").1 :=
  ⟨by decide, by decide, rfl, by decide⟩

/-- C9, amended: for every task identity other than `"sine"` and
`"celeba"`, provided no persisted result is returned early (no cache
hit, or rerun requested), `run` raises `NotImplementedError` at task
selection, before model initialisation and before training. -/
theorem C9_unsupported_task_aborts (cached rerun : Bool) (task : String)
    (h1 : task ≠ "sine") (h2 : task ≠ "celeba") (h3 : cached = false ∨ rerun = true) :
    runControl cached rerun task =
      ([RunStep.cacheCheck, RunStep.configWarn, RunStep.taskSelect],
        Except.error RunErr.notImplemented) ∧
    RunStep.initModel ∉ (runControl cached rerun task).1 ∧
    RunStep.train ∉ (runControl cached rerun task).1 := by
  have hcc : (cached && !rerun) = false := by
    rcases h3 with h | h <;> simp [h]
  have hsel : ¬(task = "sine" ∨ task = "celeba") := by tauto
  refine ⟨by simp [runControl, hcc, hsel], ?_, ?_⟩ <;>
    simp [runControl, hcc, hsel]

/-- Witness for C9 at the concrete task identity `"foo"` with no
cached result. -/
theorem C9_unsupported_task_aborts_witness :
    ("foo" : String) ≠ "sine" ∧
    (runControl false false "foo").2 = Except.error RunErr.notImplemented := by
  refine ⟨by decide, ?_⟩
  rw [(C9_unsupported_task_aborts false false "foo" (by decide) (by decide) (Or.inl rfl)).1]

/-- Cloning a parameter set copies every component's value. -/
theorem clone_eq {α : Type} (p : ParameterSet α) : clone p = p := by
  cases p
  simp [clone]

/-- Derivative of a finite sum of real functions indexed by a list. -/
theorem hasDerivAt_list_sum {ι : Type} (l : List ι) (f : ι → ℝ → ℝ) (f' : ι → ℝ) (x : ℝ)
    (h : ∀ i ∈ l, HasDerivAt (f i) (f' i) x) :
    HasDerivAt (fun y => (l.map (fun i => f i y)).sum) ((l.map f').sum) x := by
  induction l with
  | nil => simpa using hasDerivAt_const x (0 : ℝ)
  | cons a t ih =>
    simp only [List.map_cons, List.sum_cons]
    exact (h a (List.mem_cons_self a t)).add
      (ih (fun i hi => h i (List.mem_cons_of_mem a hi)))

/-- First component of `gradMseLin` is the partial derivative of
`mseLin` with respect to the weight. -/
theorem mseLin_hasDerivAt_weight (xs ys : List ℝ) (w b c : ℝ) :
    HasDerivAt (fun w' => mseLin xs ys ⟨[w'], [b], c⟩)
      ((gradMseLin xs ys ⟨[w], [b], c⟩).getD 0 0) w := by
  have hterm : ∀ q ∈ xs.zip ys,
      HasDerivAt (fun w' => (linFwd ⟨[w'], [b], c⟩ q.1 - q.2) ^ 2)
        (2 * (linFwd ⟨[w], [b], c⟩ q.1 - q.2) * q.1) w := by
    intro q _
    have h1 : HasDerivAt (fun w' : ℝ => linFwd ⟨[w'], [b], c⟩ q.1 - q.2) q.1 w := by
      simp only [linFwd, List.getD_cons_zero]
      simpa using ((((hasDerivAt_id w).mul_const q.1).add_const b).add_const c).sub_const q.2
    have h2 := h1.pow 2
    convert h2 using 1
    simp [linFwd]
  have hsum := hasDerivAt_list_sum (xs.zip ys) _ _ w hterm
  have h3 := hsum.div_const ((xs.length : ℝ))
  simpa [mseLin, gradMseLin] using h3

/-- Second component of `gradMseLin` is the partial derivative of
`mseLin` with respect to the bias. -/
theorem mseLin_hasDerivAt_bias (xs ys : List ℝ) (w b c : ℝ) :
    HasDerivAt (fun b' => mseLin xs ys ⟨[w], [b'], c⟩)
      ((gradMseLin xs ys ⟨[w], [b], c⟩).getD 1 0) b := by
  have hterm : ∀ q ∈ xs.zip ys,
      HasDerivAt (fun b' => (linFwd ⟨[w], [b'], c⟩ q.1 - q.2) ^ 2)
        (2 * (linFwd ⟨[w], [b], c⟩ q.1 - q.2)) b := by
    intro q _
    have h1 : HasDerivAt (fun b' : ℝ => linFwd ⟨[w], [b'], c⟩ q.1 - q.2) 1 b := by
      simp only [linFwd, List.getD_cons_zero]
      simpa using (((hasDerivAt_id b).const_add (w * q.1)).add_const c).sub_const q.2
    have h2 := h1.pow 2
    convert h2 using 1
    simp [linFwd]
  have hsum := hasDerivAt_list_sum (xs.zip ys) _ _ b hterm
  have h3 := hsum.div_const ((xs.length : ℝ))
  simpa [mseLin, gradMseLin] using h3

/-- Third component of `gradMseLin` is the partial derivative of
`mseLin` with respect to the context. -/
theorem mseLin_hasDerivAt_context (xs ys : List ℝ) (w b c : ℝ) :
    HasDerivAt (fun c' => mseLin xs ys ⟨[w], [b], c'⟩)
      ((gradMseLin xs ys ⟨[w], [b], c⟩).getD 2 0) c := by
  have hterm : ∀ q ∈ xs.zip ys,
      HasDerivAt (fun c' => (linFwd ⟨[w], [b], c'⟩ q.1 - q.2) ^ 2)
        (2 * (linFwd ⟨[w], [b], c⟩ q.1 - q.2)) c := by
    intro q _
    have h1 : HasDerivAt (fun c' : ℝ => linFwd ⟨[w], [b], c'⟩ q.1 - q.2) 1 c := by
      simp only [linFwd, List.getD_cons_zero]
      simpa using ((hasDerivAt_id c).const_add (w * q.1 + b)).sub_const q.2
    have h2 := h1.pow 2
    convert h2 using 1
    simp [linFwd]
  have hsum := hasDerivAt_list_sum (xs.zip ys) _ _ c hterm
  have h3 := hsum.div_const ((xs.length : ℝ))
  simpa [mseLin, gradMseLin] using h3

/-- Derivative of the loss `L(w) = (w * 2 - 4)^2` of the
single-weight scenario at `w = 0` is `-16`. -/
theorem toyLoss_hasDerivAt :
    HasDerivAt (fun w => mseLin [2] [4] ⟨[w], [0], 0⟩) (-16 : ℝ) 0 := by
  have h := mseLin_hasDerivAt_weight [2] [4] 0 0 0
  have hv : (gradMseLin [2] [4] (⟨[0], [0], 0⟩ : ParameterSet ℝ)).getD 0 0 = -16 := by
    norm_num [gradMseLin, linFwd]
  rwa [hv] at h

/-- C4: in the one-dimensional scenario (single scalar weight `w`
starting at 0, one sample `x = 2`, `y = 4`, step size `1/2`, MSE loss
`L(w) = (w * 2 - 4)^2`), any `g` that is the derivative of the loss at
`w = 0` makes the weight-update assignment of the inner loop produce
exactly `w' = 8`. -/
theorem C4_single_weight_step (g : ℝ)
    (h : HasDerivAt (fun w => mseLin [2] [4] ⟨[w], [0], 0⟩) g 0) :
    weightUpdate (1/2) 0 g = 8 := by
  have hg : g = -16 := h.unique toyLoss_hasDerivAt
  rw [hg, weightUpdate]
  norm_num

/-- Witness for C4: the derivative is `-16` and the update produces
`8`. -/
theorem C4_single_weight_step_witness :
    HasDerivAt (fun w => mseLin [2] [4] ⟨[w], [0], 0⟩) (-16 : ℝ) 0 ∧
    weightUpdate (1/2 : ℝ) 0 (-16) = 8 :=
  ⟨toyLoss_hasDerivAt, C4_single_weight_step (-16) toyLoss_hasDerivAt⟩

/-- C3: with `tasks_per_metaupdate = 1` and zero inner steps, the
averaged meta-gradient produced by the accumulation phase on the
linear model equals `gradMseLin` of the held-out data at the unmodified
shared parameters, and each component of that vector is certified to
be the partial derivative of the held-out MSE loss with respect to the
corresponding shared parameter, in the order weight, bias, context. -/
theorem C3_meta_gradient_zero_steps (lr w b c : ℝ) (xs ys : List ℝ)
    (gT : Nat → ParameterSet ℝ → List ℝ) (q : ParameterSet ℝ) (mg : List ℝ) :
    avgMetaGrad lr 0 1 3 gT (fun _ _ adapted => gradMseLin xs ys adapted)
        ⟨⟨[w], [b], c⟩, q, mg⟩ =
      some (gradMseLin xs ys ⟨[w], [b], c⟩) ∧
    HasDerivAt (fun w' => mseLin xs ys ⟨[w'], [b], c⟩)
      ((gradMseLin xs ys ⟨[w], [b], c⟩).getD 0 0) w ∧
    HasDerivAt (fun b' => mseLin xs ys ⟨[w], [b'], c⟩)
      ((gradMseLin xs ys ⟨[w], [b], c⟩).getD 1 0) b ∧
    HasDerivAt (fun c' => mseLin xs ys ⟨[w], [b], c'⟩)
      ((gradMseLin xs ys ⟨[w], [b], c⟩).getD 2 0) c := by
  refine ⟨?_, mseLin_hasDerivAt_weight xs ys w b c, mseLin_hasDerivAt_bias xs ys w b c,
    mseLin_hasDerivAt_context xs ys w b c⟩
  simp [avgMetaGrad, metaBatchPhase, taskLoop, trainInnerLoop, accumGrad, clone_eq,
    gradMseLin, List.range_succ]


/-- The per-task loop never writes the shared parameters: whenever it
succeeds, `model_outer` is unchanged. -/
theorem taskLoop_model_outer {α : Type} [Field α] (lr : α) (K n : Nat)
    (gT : Nat → ParameterSet α → List α)
    (gM : Nat → ParameterSet α → ParameterSet α → List α) (copies : ParameterSet α) :
    ∀ (T : Nat) (st st' : MamlState α),
      taskLoop lr K n gT gM copies T st = some st' → st'.model_outer = st.model_outer := by
  intro T
  induction T with
  | zero =>
    intro st st' h
    simp only [taskLoop, Option.some_inj] at h
    rw [← h]
  | succ t ih =>
    intro st st' h
    rw [taskLoop] at h
    cases htl : taskLoop lr K n gT gM copies t st with
    | none => rw [htl] at h; simp at h
    | some st1 =>
      rw [htl] at h
      cases had : trainInnerLoop lr (gT t) st1.model_outer (clone copies) K with
      | none => simp [had] at h
      | some ad =>
        simp only [Option.bind_eq_bind, Option.some_bind, had, pure, Option.some_inj] at h
        rw [← h]
        exact ih st st1 htl

/-- Indexing into a map over `List.range`. -/
theorem getD_range_map {α : Type} [Field α] (f : Nat → α) (n k : Nat) (hk : k < n) :
    (((List.range n).map f).getD k 0) = f k := by
  rw [List.getD_eq_getElem?_getD]
  simp [List.getElem?_map, List.getElem?_range hk]

/-- Indexing into the zero-initialised accumulator. -/
theorem getD_replicate_zero {α : Type} [Field α] (n k : Nat) :
    ((List.replicate n (0 : α)).getD k 0) = 0 := by
  rw [List.getD_eq_getElem?_getD]
  rcases Nat.lt_or_ge k n with h | h
  · simp [List.getElem?_replicate, h]
  · simp [List.getElem?_eq_none, h]

/-- Closed form of the per-task loop on a batch of identical tasks:
every task contributes the same gradient vector, so the accumulator
after `T` tasks holds `T` times the single-task contribution. -/
theorem taskLoop_const_grads {α : Type} [Field α] (lr : α) (K n : Nat)
    (gT : ParameterSet α → List α) (gM : ParameterSet α → ParameterSet α → List α)
    (copies outer : ParameterSet α) (T : Nat) (hT : 1 ≤ T) :
    ∀ (q : ParameterSet α) (mg : List α),
      taskLoop lr K n (fun _ => gT) (fun _ => gM) copies T ⟨outer, q, mg⟩ =
        (trainInnerLoop lr gT outer (clone copies) K).bind
          (fun ad => some ⟨outer, ad, (List.range n).map
            (fun k => mg.getD k 0 + (T : α) * (gM outer ad).getD k 0)⟩) := by
  induction T, hT using Nat.le_induction with
  | base =>
    intro q mg
    rw [taskLoop]
    cases had : trainInnerLoop lr gT outer (clone copies) K with
    | none => simp [taskLoop, had]
    | some ad =>
      simp only [taskLoop, Option.bind_eq_bind, Option.some_bind, had, pure, Option.some_inj]
      unfold accumGrad
      refine congrArg (fun l => MamlState.mk outer ad l) ?_
      apply List.map_congr_left
      intro k _
      push_cast
      ring
  | succ t ht ih =>
    intro q mg
    rw [taskLoop, ih]
    cases had : trainInnerLoop lr gT outer (clone copies) K with
    | none => simp [had]
    | some ad =>
      simp only [had, Option.bind_eq_bind, Option.some_bind, pure, Option.some_inj]
      unfold accumGrad
      refine congrArg (fun l => MamlState.mk outer ad l) ?_
      apply List.map_congr_left
      intro k hk
      rw [getD_range_map _ _ _ (List.mem_range.mp hk)]
      push_cast
      ring

/-- C7: running the meta-gradient accumulation on a batch of `T ≥ 1`
copies of the same task (identical training and test data, hence
identical per-task gradient functions) and dividing the accumulator by
`T` yields exactly the averaged meta-gradient of a batch of size 1
with that task. -/
theorem C7_identical_tasks_average {α : Type} [Field α] [CharZero α] (lr : α) (K T n : Nat)
    (gT : ParameterSet α → List α) (gM : ParameterSet α → ParameterSet α → List α)
    (s : MamlState α) (hT : 1 ≤ T) :
    avgMetaGrad lr K T n (fun _ => gT) (fun _ => gM) s =
      avgMetaGrad lr K 1 n (fun _ => gT) (fun _ => gM) s := by
  unfold avgMetaGrad metaBatchPhase
  rw [taskLoop_const_grads lr K n gT gM (clone s.model_outer) s.model_outer T hT,
    taskLoop_const_grads lr K n gT gM (clone s.model_outer) s.model_outer 1 (le_refl 1)]
  cases had : trainInnerLoop lr gT s.model_outer (clone (clone s.model_outer)) K with
  | none => simp [had]
  | some ad =>
    simp only [had, Option.bind_eq_bind, Option.some_bind, Option.map_some', Option.some_inj]
    rw [List.map_map, List.map_map]
    apply List.map_congr_left
    intro k _
    simp only [Function.comp]
    rw [getD_replicate_zero]
    have hTne : (T : α) ≠ 0 := Nat.cast_ne_zero.mpr (by omega)
    push_cast
    field_simp

/-- C6: the cloning-and-adaptation phase of an outer iteration leaves
the shared parameters (`model_outer`) unchanged whenever it completes,
and after a full outer iteration the shared parameters are exactly the
result of the outer-optimizer step applied to the pre-iteration shared
parameters and the averaged meta-gradient — the optimizer step is the
only write. -/
theorem C6_shared_params_frame {α : Type} [Field α]
    (opt : ParameterSet α → List α → ParameterSet α) (lr : α) (K T n : Nat)
    (gT : Nat → ParameterSet α → List α)
    (gM : Nat → ParameterSet α → ParameterSet α → List α) (s : MamlState α) :
    (∀ r, metaBatchPhase lr K T n gT gM s = some r → r.model_outer = s.model_outer) ∧
    (∀ r', metaIteration opt lr K T n gT gM s = some r' →
      r'.model_outer = opt s.model_outer (r'.meta_gradient.map (fun g => g / (T : α)))) := by
  have hframe : ∀ r, metaBatchPhase lr K T n gT gM s = some r →
      r.model_outer = s.model_outer := by
    intro r h
    unfold metaBatchPhase at h
    have := taskLoop_model_outer lr K n gT gM (clone s.model_outer) T _ _ h
    simpa using this
  refine ⟨hframe, ?_⟩
  intro r' h
  unfold metaIteration at h
  cases hph : metaBatchPhase lr K T n gT gM s with
  | none => rw [hph] at h; simp at h
  | some r =>
    rw [hph] at h
    simp only [Option.map_some', Option.some_inj] at h
    rw [← h]
    simp only
    rw [hframe r hph]

/-- Witness for C6 at a concrete one-task batch over `ℚ`. -/
theorem C6_shared_params_frame_witness :
    metaBatchPhase (0 : ℚ) 0 1 3 (fun _ _ => []) (fun _ _ p => linGrad 1 1 p)
        ⟨⟨[0], [0], 0⟩, ⟨[1], [1], 1⟩, []⟩ =
      some ⟨⟨[0], [0], 0⟩, ⟨[0], [0], 0⟩, [-2, -2, -2]⟩ ∧
    (⟨⟨[0], [0], 0⟩, ⟨[0], [0], 0⟩, [-2, -2, -2]⟩ : MamlState ℚ).model_outer =
      (⟨⟨[0], [0], 0⟩, ⟨[1], [1], 1⟩, []⟩ : MamlState ℚ).model_outer := by
  have h : metaBatchPhase (0 : ℚ) 0 1 3 (fun _ _ => []) (fun _ _ p => linGrad 1 1 p)
      ⟨⟨[0], [0], 0⟩, ⟨[1], [1], 1⟩, []⟩ =
      some ⟨⟨[0], [0], 0⟩, ⟨[0], [0], 0⟩, [-2, -2, -2]⟩ := by
    norm_num [metaBatchPhase, taskLoop, trainInnerLoop, accumGrad, clone, linGrad, linFwd,
      List.range_succ]
  exact ⟨h, (C6_shared_params_frame (fun p _ => p) 0 0 1 3 (fun _ _ => [])
    (fun _ _ p => linGrad 1 1 p) _).1 _ h⟩

/-- Witness for C7 at a concrete two-copy batch over `ℚ`. -/
theorem C7_identical_tasks_average_witness :
    1 ≤ 2 ∧
    avgMetaGrad (0 : ℚ) 0 2 3 (fun _ => fun _ => [])
        (fun _ => fun _ p => linGrad 1 1 p) ⟨⟨[0], [0], 0⟩, ⟨[0], [0], 0⟩, []⟩ =
      avgMetaGrad (0 : ℚ) 0 1 3 (fun _ => fun _ => [])
        (fun _ => fun _ p => linGrad 1 1 p) ⟨⟨[0], [0], 0⟩, ⟨[0], [0], 0⟩, []⟩ :=
  ⟨by norm_num, C7_identical_tasks_average 0 0 2 3 (fun _ => []) (fun _ p => linGrad 1 1 p)
    ⟨⟨[0], [0], 0⟩, ⟨[0], [0], 0⟩, []⟩ (by norm_num)⟩
